import Mathlib

/-!
# Laser injection of PIConGPU: `LaserPhysics` and `KernelLaser`

A shallow embedding of `include/picongpu/fields/LaserPhysics.hpp`.

Conventions of the embedding.

* `DataSpace< simDim >` holds `int` components.  In this file every component
  is a cell count, a supercell count or an offset into the local domain; all of
  them are non-negative and far below `2^31`, so a component is a `Nat`.  The one
  subtraction of the source, `superCellIdx - mapper.getGuardingSuperCells( )`,
  subtracts what the mapper has just added.
* `simDim` is `DIM2` or `DIM3`.  A `DataSpace` always carries three components;
  for `DIM2` the `z` component of a position is `0` and the `z` component of an
  extent is not looked at.
* `float_X` arithmetic is not interpreted: the operations that the source uses
  are the fields of `FloatX F` for an arbitrary carrier `F`.
* `PMACC_CASSERT_MSG` is a compile-time assertion.  It is a predicate on the
  configuration; the run-time meaning of `operator()` is given separately.
-/

namespace picongpu

/-! ## Data model -/

/-- Number of simulated dimensions (`simDim`). -/
inductive SimDim where
  | DIM2
  | DIM3
  deriving DecidableEq, Repr

/-- An index or extent per axis, `DataSpace< simDim >` (and the compile-time
vectors `SuperCellSize`, `LaserPlaneSizeInSuperCell` after `toRT()`). -/
structure DataSpace where
  x : Nat
  y : Nat
  z : Nat
  deriving DecidableEq, Repr

namespace DataSpace

/-- Component-wise `operator+`. -/
def add (a b : DataSpace) : DataSpace := ⟨a.x + b.x, a.y + b.y, a.z + b.z⟩

/-- Component-wise `operator-`. -/
def sub (a b : DataSpace) : DataSpace := ⟨a.x - b.x, a.y - b.y, a.z - b.z⟩

/-- Component-wise `operator*`. -/
def mul (a b : DataSpace) : DataSpace := ⟨a.x * b.x, a.y * b.y, a.z * b.z⟩

/-- Component-wise `operator/` (integer division). -/
def div (a b : DataSpace) : DataSpace := ⟨a.x / b.x, a.y / b.y, a.z / b.z⟩

end DataSpace

/-- The operations on `float_X` that `LaserPhysics::operator()` uses. -/
structure FloatX (F : Type) where
  /-- Conversion of a `uint32_t` to `float_X`. -/
  ofUInt32 : Nat → F
  /-- The literal `float_X(0.0)`. -/
  zero : F
  mul : F → F → F
  div : F → F → F
  sub : F → F → F
  /-- The comparison `>=`. -/
  ge : F → F → Bool
  /-- The comparison `==`. -/
  eq : F → F → Bool

/-- Modelled from the spec: the class `MovingWindow` is defined outside
`LaserPhysics.hpp`.  The spec: it "reports how many times the simulated domain
has slid".  The model records the counter at the start of the process and, for each time step,
whether the window slides in it. -/
structure MovingWindow where
  /-- The value of the slide counter when the process starts (nonzero after a
  restart from a checkpoint taken behind a slide). -/
  slideCounter : Nat
  /-- Whether the window slides in a time step. -/
  doSlide : Nat → Bool

/-- Modelled from the spec: `MovingWindow::getSlideCounter(currentStep)`, the
counter at the start of the process plus the number of slides performed up to
and including `currentStep`. -/
def MovingWindow.getSlideCounter (mw : MovingWindow) (currentStep : Nat) : Nat :=
  mw.slideCounter + ((List.range (currentStep + 1)).filter mw.doSlide).length

/-- Everything `LaserPhysics::operator()` and `KernelLaser::operator()` read
besides `currentStep`: the compile-time configuration and the run-time
environment. -/
structure Env (F : Type) where
  /-- Arithmetic of `float_X`. -/
  ops : FloatX F
  simDim : SimDim
  /-- Extent of a supercell in cells, `SuperCellSize`. -/
  SuperCellSize : DataSpace
  /-- The constant `laser::initPlaneY` (`uint32_t`). -/
  initPlaneY : Nat
  CELL_HEIGHT : F
  SPEED_OF_LIGHT : F
  DELTA_T : F
  /-- The constant `laserProfile::INIT_TIME`. -/
  INIT_TIME : F
  /-- The table `ABSORBER_CELLS[axis][side]`. -/
  ABSORBER_CELLS : Nat → Nat → Nat
  /-- The trait `pmacc::traits::GetNumWorkers< maxWorkers >::value`. -/
  GetNumWorkers : Nat → Nat
  movingWindow : MovingWindow
  /-- The value of `GridController().getCommunicationMask( ).isSet( TOP )`. -/
  communicationMaskTOP : Bool
  /-- Size of the local domain without guards:
  `SubGrid().getLocalDomain().size`, which is also
  `fieldE->getGridLayout( ).getDataSpaceWithoutGuarding( )`. -/
  localDomainSize : DataSpace
  /-- The value of `mapper.getGuardingSuperCells( )`. -/
  guardingSuperCells : DataSpace

/-! ## Helpers of pmacc that the kernel uses -/

/-- The compile-time `pmacc::math::CT::volume`: the product of the components
of a vector of dimension `simDim`. -/
def volume (simDim : SimDim) (v : DataSpace) : Nat :=
  match simDim with
  | SimDim.DIM2 => v.x * v.y
  | SimDim.DIM3 => v.x * v.y * v.z

/-- The compile-time `pmacc::math::CT::AssignIfInRange< vec, idx, value >`:
component `idx` of `vec` replaced by `value` when `idx` is below the
dimension of `vec`. -/
def AssignIfInRange (simDim : SimDim) (vec : DataSpace) (idx value : Nat) : DataSpace :=
  let dim := match simDim with
    | SimDim.DIM2 => 2
    | SimDim.DIM3 => 3
  if idx < dim then
    match idx with
    | 0 => { vec with x := value }
    | 1 => { vec with y := value }
    | _ => { vec with z := value }
  else vec

/-- Modelled from the spec: `DataSpaceOperations< simDim >::map< TVec >` is
defined in pmacc, outside `LaserPhysics.hpp`.  The spec: it translates "the
compile-time-mapped linear index to an N-dim cell coordinate within the
supercell"; the linear index runs fastest along `x`, then `y`, then `z`. -/
def map (simDim : SimDim) (TVec : DataSpace) (pos : Nat) : DataSpace :=
  match simDim with
  | SimDim.DIM2 => ⟨pos % TVec.x, pos / TVec.x, 0⟩
  | SimDim.DIM3 => ⟨pos % TVec.x, (pos / TVec.x) % TVec.y, pos / (TVec.x * TVec.y)⟩

/-- Modelled from the spec: `mappings::threads::IdxConfig::numCollIter`, the
number of rounds every worker takes: `domainSize / workerSize` rounded up. -/
def numCollIter (domainSize workerSize : Nat) : Nat :=
  (domainSize + workerSize - 1) / workerSize

/-- Modelled from the spec: `mappings::threads::ForEachIdx< IdxConfig<
domainSize, workerSize > >{ workerIdx }` is defined in pmacc, outside
`LaserPhysics.hpp`.  The spec: "round-robin assignment by a fixed,
deterministic worker-count/cell-count ratio".  In round `i` worker `workerIdx`
is handed the index `i * workerSize + workerIdx`, provided it lies in the
domain.  The result lists the indices the functor is called with, in order. -/
def ForEachIdx (domainSize workerSize workerIdx : Nat) : List Nat :=
  ((List.range (numCollIter domainSize workerSize)).map
    (fun i => i * workerSize + workerIdx)).filter (fun linearIdx => linearIdx < domainSize)

/-- Modelled from the spec: `mapper.getSuperCellIndex( blockIdx )`; the mapper
is defined outside `LaserPhysics.hpp`.  The spec: it "accounts for guard-cell
blocks, which are excluded from iteration": block `b` is the supercell
`b + guardingSuperCells`. -/
def getSuperCellIndex {F : Type} (env : Env F) (blockIdx : DataSpace) : DataSpace :=
  blockIdx.add env.guardingSuperCells

/-! ## `KernelLaser` -/

/-- One call of the laser functor: the block's evaluator was built for
`localSuperCellOffset` and is invoked on `cellIdxInSuperCell`. -/
structure EvaluatorCall where
  localSuperCellOffset : DataSpace
  cellIdxInSuperCell : DataSpace
  deriving DecidableEq, Repr

/-- Position of the evaluated cell in the local domain without guards:
`localSuperCellOffset * SuperCellSize + cellIdxInSuperCell`. -/
def EvaluatorCall.localCell (SuperCellSize : DataSpace) (c : EvaluatorCall) : DataSpace :=
  (c.localSuperCellOffset.mul SuperCellSize).add c.cellIdxInSuperCell

namespace KernelLaser

/-- The compile-time assertion
`__LaserPlaneSizeInSuperCell_y_must_be_less_or_equal_than_SuperCellSize_y`. -/
def cassert (LaserPlaneSizeInSuperCell SuperCellSize : DataSpace) : Bool :=
  decide (LaserPlaneSizeInSuperCell.y ≤ SuperCellSize.y)

/-- The block-offset correction `laser::initPlaneY / SuperCellSize::y`. -/
def blockOffsetCorrection (initPlaneY superCellSizeY : Nat) : Nat :=
  initPlaneY / superCellSizeY

/-- The residual `cellOffsetInSuperCellFromInitPlaneY =
laser::initPlaneY % SuperCellSize::y`. -/
def cellOffsetInSuperCellFromInitPlaneY (initPlaneY superCellSizeY : Nat) : Nat :=
  initPlaneY % superCellSizeY

/-- The `localSuperCellOffset` of a block: the supercell index without the
guarding supercells, moved along `y` by the supercells that `initPlaneY`
skips. -/
def localSuperCellOffset {F : Type} (env : Env F) (blockIdx : DataSpace) : DataSpace :=
  let superCellIdx := getSuperCellIndex env blockIdx
  let offset := superCellIdx.sub env.guardingSuperCells
  { offset with y := offset.y + blockOffsetCorrection env.initPlaneY env.SuperCellSize.y }

/-- The body of the functor given to `ForEachIdx`: the cell index within the
supercell that is passed to the evaluator for `linearIdx`. -/
def cellIdxInSuperCell (simDim : SimDim) (LaserPlaneSizeInSuperCell : DataSpace)
    (initPlaneY superCellSizeY linearIdx : Nat) : DataSpace :=
  let cell := map simDim LaserPlaneSizeInSuperCell linearIdx
  { cell with y := cell.y + cellOffsetInSuperCellFromInitPlaneY initPlaneY superCellSizeY }

/-- The body of `KernelLaser< numWorkers, LaserPlaneSizeInSuperCell
>::operator()` for the thread `workerIdx` of the block `blockIdx`: the calls
of the evaluator it makes, in order. -/
def run {F : Type} (env : Env F) (numWorkers : Nat) (LaserPlaneSizeInSuperCell : DataSpace)
    (blockIdx : DataSpace) (workerIdx : Nat) : List EvaluatorCall :=
  let planeSize := volume env.simDim LaserPlaneSizeInSuperCell
  let offset := localSuperCellOffset env blockIdx
  (ForEachIdx planeSize numWorkers workerIdx).map (fun linearIdx =>
    { localSuperCellOffset := offset
      cellIdxInSuperCell :=
        cellIdxInSuperCell env.simDim LaserPlaneSizeInSuperCell env.initPlaneY
          env.SuperCellSize.y linearIdx })

/-- The kernel as the compiler sees it: `none` when the compile-time assertion
fails (the kernel is not built, nothing runs), otherwise the body. -/
def instantiate {F : Type} (env : Env F) (numWorkers : Nat)
    (LaserPlaneSizeInSuperCell : DataSpace) :
    Option (DataSpace → Nat → List EvaluatorCall) :=
  if cassert LaserPlaneSizeInSuperCell env.SuperCellSize then
    some (run env numWorkers LaserPlaneSizeInSuperCell)
  else none

end KernelLaser

/-! ## Kernel launch -/

/-- The block indices of a launch with the grid `gridBlocks`.  A grid of
dimension two has one layer of blocks along `z`. -/
def blockIndices (simDim : SimDim) (gridBlocks : DataSpace) : List DataSpace :=
  let nz := match simDim with
    | SimDim.DIM2 => 1
    | SimDim.DIM3 => gridBlocks.z
  (List.range nz).flatMap (fun bz =>
    (List.range gridBlocks.y).flatMap (fun by_ =>
      (List.range gridBlocks.x).map (fun bx => (⟨bx, by_, bz⟩ : DataSpace))))

/-- The launch `PMACC_KERNEL( kernel )( gridBlocks, numWorkers )( ... )`: the
kernel body runs for every block of the grid and every worker of a block. -/
def PMACC_KERNEL {α : Type} (simDim : SimDim) (kernel : DataSpace → Nat → List α)
    (gridBlocks : DataSpace) (numWorkers : Nat) : List α :=
  (blockIndices simDim gridBlocks).flatMap (fun blockIdx =>
    (List.range numWorkers).flatMap (fun workerIdx => kernel blockIdx workerIdx))

/-! ## `LaserPhysics` -/

/-- What a call of `LaserPhysics::operator()` does. -/
inductive Outcome where
  /-- The laser is disabled: nothing happens. -/
  | noop
  /-- The check `PMACC_VERIFY_MSG` fails: the process terminates. -/
  | fatal (msg : String)
  /-- The kernel is launched; `calls` are the calls of the evaluator. -/
  | dispatched (gridBlocks : DataSpace) (numWorkers : Nat) (calls : List EvaluatorCall)
  deriving DecidableEq, Repr

/-- The evaluator calls of an outcome; each one writes its cell of the field. -/
def Outcome.calls : Outcome → List EvaluatorCall
  | Outcome.dispatched _ _ calls => calls
  | _ => []

/-- Whether a kernel was launched. -/
def Outcome.isDispatched : Outcome → Bool
  | Outcome.dispatched _ _ _ => true
  | _ => false

namespace LaserPhysics

/-- The constant `laserTimeShift = laser::initPlaneY * CELL_HEIGHT /
SPEED_OF_LIGHT`. -/
def laserTimeShift {F : Type} (env : Env F) : F :=
  env.ops.div (env.ops.mul (env.ops.ofUInt32 env.initPlaneY) env.CELL_HEIGHT) env.SPEED_OF_LIGHT

/-- The flag `laserNone`. -/
def laserNone {F : Type} (env : Env F) : Bool :=
  env.ops.eq env.INIT_TIME env.ops.zero

/-- The flag `laserInitTimeOver`. -/
def laserInitTimeOver {F : Type} (env : Env F) (currentStep : Nat) : Bool :=
  env.ops.ge
    (env.ops.sub (env.ops.mul (env.ops.ofUInt32 currentStep) env.DELTA_T) (laserTimeShift env))
    env.INIT_TIME

/-- The flag `topBoundariesArePeriodic`. -/
def topBoundariesArePeriodic {F : Type} (env : Env F) : Bool :=
  env.communicationMaskTOP

/-- The flag `boxHasSlided`. -/
def boxHasSlided {F : Type} (env : Env F) (currentStep : Nat) : Bool :=
  let numSlides := env.movingWindow.getSlideCounter currentStep
  numSlides != 0

/-- The flag `disableLaser`. -/
def disableLaser {F : Type} (env : Env F) (currentStep : Nat) : Bool :=
  laserNone env || laserInitTimeOver env currentStep ||
    topBoundariesArePeriodic env || boxHasSlided env currentStep

/-- The compile-time assertion
`__initPlaneY_needs_to_be_greate_than_the_top_absorber_cells_or_zero`. -/
def absorberCassert {F : Type} (env : Env F) : Bool :=
  decide (env.initPlaneY > env.ABSORBER_CELLS 1 0) ||
    env.initPlaneY == 0 ||
    env.ops.eq env.INIT_TIME env.ops.zero

/-- The constant `laserInitCellsInY`. -/
def laserInitCellsInY : Nat := 1

/-- The type `LaserPlaneSizeInSuperCells`: the supercell extents with the
`y` component replaced by `laserInitCellsInY`. -/
def LaserPlaneSizeInSuperCells {F : Type} (env : Env F) : DataSpace :=
  AssignIfInRange env.simDim env.SuperCellSize 1 laserInitCellsInY

/-- The grid of the launch: the blocks of the local domain, one layer in `y`. -/
def gridBlocks {F : Type} (env : Env F) : DataSpace :=
  let blocks := env.localDomainSize.div env.SuperCellSize
  { blocks with y := 1 }

/-- The constant `numWorkers` of `LaserPhysics::operator()`. -/
def numWorkers {F : Type} (env : Env F) : Nat :=
  env.GetNumWorkers (volume env.simDim (LaserPlaneSizeInSuperCells env))

/-- The launch `PMACC_KERNEL( KernelLaser< numWorkers,
LaserPlaneSizeInSuperCells >{} )( gridBlocks, numWorkers )( ... )`: the calls
of the evaluator that it makes. -/
def launch {F : Type} (env : Env F) : List EvaluatorCall :=
  PMACC_KERNEL env.simDim
    (KernelLaser.run env (numWorkers env) (LaserPlaneSizeInSuperCells env))
    (gridBlocks env) (numWorkers env)

/-- The run-time behaviour of `LaserPhysics::operator()( currentStep )`. -/
def apply {F : Type} (env : Env F) (currentStep : Nat) : Outcome :=
  if !disableLaser env currentStep then
    if env.initPlaneY < env.localDomainSize.y then
      Outcome.dispatched (gridBlocks env) (numWorkers env) (launch env)
    else
      Outcome.fatal "initPlaneY must be located in the top GPU"
  else
    Outcome.noop

/-- The cells of the local domain that the evaluator is called for in step
`currentStep`, one entry per call. -/
def writtenCells {F : Type} (env : Env F) (currentStep : Nat) : List DataSpace :=
  (apply env currentStep).calls.map (EvaluatorCall.localCell env.SuperCellSize)

/-- Both compile-time assertions that guard `LaserPhysics::operator()` hold:
the configuration builds. -/
def compiles {F : Type} (env : Env F) : Bool :=
  absorberCassert env &&
    KernelLaser.cassert (LaserPlaneSizeInSuperCells env) env.SuperCellSize

end LaserPhysics

/-- A cell of the local domain that lies in the injection plane: inside the
local domain without guards, at the `y` offset `initPlaneY`. -/
def inInjectionPlane {F : Type} (env : Env F) (cell : DataSpace) : Prop :=
  cell.x < env.localDomainSize.x ∧
    cell.y = env.initPlaneY ∧ cell.y < env.localDomainSize.y ∧
    (match env.simDim with
      | SimDim.DIM2 => cell.z = 0
      | SimDim.DIM3 => cell.z < env.localDomainSize.z)

instance {F : Type} (env : Env F) (cell : DataSpace) : Decidable (inInjectionPlane env cell) := by
  unfold inInjectionPlane
  cases env.simDim <;> exact inferInstance

/-! ## Concrete configurations

`float_X` is interpreted by the integers in the examples.  Every value that
occurs in them is a small integer and every quotient is exact, so single
precision arithmetic gives the same results. -/

/-- Exact arithmetic on integers as an interpretation of `float_X`. -/
def intOps : FloatX Int where
  ofUInt32 := Int.ofNat
  zero := 0
  mul := fun a b => a * b
  div := fun a b => a / b
  sub := fun a b => a - b
  ge := fun a b => decide (a ≥ b)
  eq := fun a b => decide (a = b)

/-- A three-dimensional set-up: supercells of `2 x 2 x 2` cells, a local
domain of `4 x 4 x 2` cells, the laser plane at `y = 3` behind an absorber
of two cells, one worker per cell of the plane, a slide in step 200. -/
def exampleEnv : Env Int where
  ops := intOps
  simDim := SimDim.DIM3
  SuperCellSize := ⟨2, 2, 2⟩
  initPlaneY := 3
  CELL_HEIGHT := 1
  SPEED_OF_LIGHT := 1
  DELTA_T := 1
  INIT_TIME := 100
  ABSORBER_CELLS := fun _ _ => 2
  GetNumWorkers := fun n => n
  movingWindow := ⟨0, fun s => decide (s = 200)⟩
  communicationMaskTOP := false
  localDomainSize := ⟨4, 4, 2⟩
  guardingSuperCells := ⟨1, 1, 1⟩

/-- The set-up `exampleEnv` with the laser plane at `y = 5`, below the local
domain of the device (which has four cells in `y`). -/
def planeOutsideEnv : Env Int :=
  { exampleEnv with initPlaneY := 5 }

/-- The set-up `exampleEnv` with a local domain of five cells in `x`, which
is not a whole number of supercells. -/
def raggedEnv : Env Int :=
  { exampleEnv with localDomainSize := ⟨5, 4, 2⟩ }

/-! ## Basic facts -/

namespace LaserPhysics

theorem apply_disabled {F : Type} (env : Env F) (currentStep : Nat)
    (h : disableLaser env currentStep = true) : apply env currentStep = Outcome.noop := by
  simp [apply, h]

theorem apply_enabled_inside {F : Type} (env : Env F) (currentStep : Nat)
    (h : disableLaser env currentStep = false) (hy : env.initPlaneY < env.localDomainSize.y) :
    apply env currentStep =
      Outcome.dispatched (gridBlocks env) (numWorkers env) (launch env) := by
  simp [apply, h, hy]

theorem apply_enabled_outside {F : Type} (env : Env F) (currentStep : Nat)
    (h : disableLaser env currentStep = false) (hy : env.localDomainSize.y ≤ env.initPlaneY) :
    apply env currentStep = Outcome.fatal "initPlaneY must be located in the top GPU" := by
  simp [apply, h, Nat.not_lt.mpr hy]

theorem disableLaser_eq_false_iff {F : Type} (env : Env F) (currentStep : Nat) :
    disableLaser env currentStep = false ↔
      ¬ (laserNone env = true ∨ laserInitTimeOver env currentStep = true ∨
          topBoundariesArePeriodic env = true ∨ boxHasSlided env currentStep = true) := by
  unfold disableLaser
  cases laserNone env <;> cases laserInitTimeOver env currentStep <;>
    cases topBoundariesArePeriodic env <;> cases boxHasSlided env currentStep <;> simp

theorem boxHasSlided_iff {F : Type} (env : Env F) (currentStep : Nat) :
    boxHasSlided env currentStep = true ↔ env.movingWindow.getSlideCounter currentStep ≠ 0 := by
  simp [boxHasSlided]

theorem LaserPlaneSizeInSuperCells_eq {F : Type} (env : Env F) :
    LaserPlaneSizeInSuperCells env = ⟨env.SuperCellSize.x, 1, env.SuperCellSize.z⟩ := by
  unfold LaserPlaneSizeInSuperCells AssignIfInRange laserInitCellsInY
  cases env.simDim <;> simp

end LaserPhysics

theorem MovingWindow.getSlideCounter_mono (mw : MovingWindow) {s t : Nat} (h : s ≤ t) :
    mw.getSlideCounter s ≤ mw.getSlideCounter t := by
  unfold MovingWindow.getSlideCounter
  have hsub : List.Sublist (List.range (s + 1)) (List.range (t + 1)) :=
    List.range_sublist.mpr (Nat.succ_le_succ h)
  exact Nat.add_le_add_left (hsub.filter _).length_le _

/-! ## Claims -/

/-- C4: for every `initPlaneY` and every supercell extent `S > 0` along `y`,
the block-offset correction of the kernel is `initPlaneY div S` and the
residual cell offset is `initPlaneY mod S`; correction times `S` plus residual
gives back `initPlaneY`, and the residual is at least `0` and below `S`.  For
`initPlaneY = 10`, `S = 8` they are `1` and `2`; for `initPlaneY = 0`, `S = 8`
both are `0`. -/
theorem KernelLaser.offset_split (initPlaneY S : Nat) (hS : 0 < S) :
    KernelLaser.blockOffsetCorrection initPlaneY S = initPlaneY / S ∧
    KernelLaser.cellOffsetInSuperCellFromInitPlaneY initPlaneY S = initPlaneY % S ∧
    KernelLaser.blockOffsetCorrection initPlaneY S * S +
        KernelLaser.cellOffsetInSuperCellFromInitPlaneY initPlaneY S = initPlaneY ∧
    0 ≤ KernelLaser.cellOffsetInSuperCellFromInitPlaneY initPlaneY S ∧
    KernelLaser.cellOffsetInSuperCellFromInitPlaneY initPlaneY S < S ∧
    (∀ {F : Type} (env : Env F) (blockIdx : DataSpace),
      env.initPlaneY = initPlaneY → env.SuperCellSize.y = S →
      (KernelLaser.localSuperCellOffset env blockIdx).y = blockIdx.y + initPlaneY / S) ∧
    KernelLaser.blockOffsetCorrection 10 8 = 1 ∧
    KernelLaser.cellOffsetInSuperCellFromInitPlaneY 10 8 = 2 ∧
    KernelLaser.blockOffsetCorrection 0 8 = 0 ∧
    KernelLaser.cellOffsetInSuperCellFromInitPlaneY 0 8 = 0 := by
  refine ⟨rfl, rfl, ?_, Nat.zero_le _, Nat.mod_lt _ hS, ?_, by decide, by decide, by decide,
    by decide⟩
  · show initPlaneY / S * S + initPlaneY % S = initPlaneY
    rw [Nat.mul_comm]
    exact Nat.div_add_mod initPlaneY S
  · intro F env blockIdx h1 h2
    simp [KernelLaser.localSuperCellOffset, getSuperCellIndex, DataSpace.add, DataSpace.sub,
      KernelLaser.blockOffsetCorrection, h1, h2]

theorem KernelLaser.offset_split_witness :
    0 < 8 ∧ KernelLaser.blockOffsetCorrection 10 8 * 8 +
      KernelLaser.cellOffsetInSuperCellFromInitPlaneY 10 8 = 10 :=
  ⟨by decide, (KernelLaser.offset_split 10 8 (by decide)).2.2.1⟩

/-- C7: the kernel `KernelLaser` is built (its compile-time assertion holds) if
and only if the `y` extent of `LaserPlaneSizeInSuperCell` is at most the `y`
extent of the supercell; a plane whose `y` extent exceeds that of the supercell
is rejected, so that no kernel body exists that could execute; and the plane
size that `LaserPhysics` builds itself (the supercell extents with the `y`
component replaced by `1`) is accepted for every supercell of positive `y`
extent. -/
theorem KernelLaser.accepted_iff {F : Type} (env : Env F) (numWorkers : Nat)
    (LaserPlaneSizeInSuperCell : DataSpace) :
    ((KernelLaser.instantiate env numWorkers LaserPlaneSizeInSuperCell).isSome = true ↔
      LaserPlaneSizeInSuperCell.y ≤ env.SuperCellSize.y) ∧
    (KernelLaser.cassert LaserPlaneSizeInSuperCell env.SuperCellSize = true ↔
      LaserPlaneSizeInSuperCell.y ≤ env.SuperCellSize.y) ∧
    (env.SuperCellSize.y < LaserPlaneSizeInSuperCell.y →
      KernelLaser.instantiate env numWorkers LaserPlaneSizeInSuperCell = none) ∧
    (LaserPhysics.LaserPlaneSizeInSuperCells env =
      ⟨env.SuperCellSize.x, 1, env.SuperCellSize.z⟩) ∧
    (0 < env.SuperCellSize.y →
      KernelLaser.cassert (LaserPhysics.LaserPlaneSizeInSuperCells env) env.SuperCellSize = true ∧
      KernelLaser.instantiate env numWorkers (LaserPhysics.LaserPlaneSizeInSuperCells env) =
        some (KernelLaser.run env numWorkers (LaserPhysics.LaserPlaneSizeInSuperCells env))) := by
  refine ⟨?_, ?_, ?_, LaserPhysics.LaserPlaneSizeInSuperCells_eq env, ?_⟩
  · unfold KernelLaser.instantiate KernelLaser.cassert
    by_cases h : LaserPlaneSizeInSuperCell.y ≤ env.SuperCellSize.y <;> simp [h]
  · simp [KernelLaser.cassert]
  · intro h
    unfold KernelLaser.instantiate KernelLaser.cassert
    simp [Nat.not_le.mpr h]
  · intro h
    have h1 : 1 ≤ env.SuperCellSize.y := h
    rw [LaserPhysics.LaserPlaneSizeInSuperCells_eq]
    unfold KernelLaser.instantiate KernelLaser.cassert
    simp [h1]

theorem KernelLaser.accepted_iff_witness :
    0 < exampleEnv.SuperCellSize.y ∧
    KernelLaser.cassert (LaserPhysics.LaserPlaneSizeInSuperCells exampleEnv)
      exampleEnv.SuperCellSize = true :=
  ⟨by decide, ((KernelLaser.accepted_iff exampleEnv 4 ⟨2, 1, 2⟩).2.2.2.2 (by decide)).1⟩

/-- C8: the absorber check accepts a configuration if and only if `initPlaneY`
is greater than `ABSORBER_CELLS[1][0]`, or `initPlaneY` is `0`, or the laser
is disabled (`INIT_TIME == 0`); hence in every accepted configuration with
the laser enabled and a nonzero offset the injection plane lies strictly
deeper than the absorber is thick. -/
theorem LaserPhysics.absorberCassert_iff {F : Type} (env : Env F) :
    (LaserPhysics.absorberCassert env = true ↔
      (env.initPlaneY > env.ABSORBER_CELLS 1 0 ∨ env.initPlaneY = 0 ∨
        env.ops.eq env.INIT_TIME env.ops.zero = true)) ∧
    (LaserPhysics.absorberCassert env = true →
      LaserPhysics.laserNone env = false → env.initPlaneY ≠ 0 →
      env.ABSORBER_CELLS 1 0 < env.initPlaneY) := by
  have key : LaserPhysics.absorberCassert env = true ↔
      (env.initPlaneY > env.ABSORBER_CELLS 1 0 ∨ env.initPlaneY = 0 ∨
        env.ops.eq env.INIT_TIME env.ops.zero = true) := by
    simp [LaserPhysics.absorberCassert, or_assoc]
  refine ⟨key, ?_⟩
  intro hacc hon hne
  rcases key.mp hacc with h | h | h
  · exact h
  · exact absurd h hne
  · unfold LaserPhysics.laserNone at hon
    rw [h] at hon
    cases hon

theorem LaserPhysics.absorberCassert_iff_witness :
    LaserPhysics.absorberCassert exampleEnv = true ∧
    LaserPhysics.laserNone exampleEnv = false ∧ exampleEnv.initPlaneY ≠ 0 ∧
    exampleEnv.ABSORBER_CELLS 1 0 < exampleEnv.initPlaneY :=
  ⟨by decide, by decide, by decide,
    (LaserPhysics.absorberCassert_iff exampleEnv).2 (by decide) (by decide) (by decide)⟩

/-- C5: for every `currentStep` and environment, `LaserPhysics::operator()`
terminates with the fatal error "initPlaneY must be located in the top GPU" if
and only if injection is active (the laser is not disabled) and `initPlaneY`
is at least the `y` size of the local domain; that is the only fatal error;
and whenever injection is inactive the call returns normally, launches no
kernel and calls the evaluator for no cell, whatever `initPlaneY` is. -/
theorem LaserPhysics.fatal_iff {F : Type} (env : Env F) (currentStep : Nat) :
    (LaserPhysics.apply env currentStep =
        Outcome.fatal "initPlaneY must be located in the top GPU" ↔
      (LaserPhysics.disableLaser env currentStep = false ∧
        env.localDomainSize.y ≤ env.initPlaneY)) ∧
    (∀ msg, LaserPhysics.apply env currentStep = Outcome.fatal msg →
      msg = "initPlaneY must be located in the top GPU") ∧
    (LaserPhysics.disableLaser env currentStep = true →
      LaserPhysics.apply env currentStep = Outcome.noop ∧
      (LaserPhysics.apply env currentStep).isDispatched = false ∧
      (LaserPhysics.apply env currentStep).calls = []) := by
  cases hd : LaserPhysics.disableLaser env currentStep
  · by_cases hy : env.initPlaneY < env.localDomainSize.y
    · rw [LaserPhysics.apply_enabled_inside env currentStep hd hy]
      refine ⟨?_, ?_, ?_⟩
      · constructor
        · intro h
          cases h
        · intro h
          exact absurd hy (Nat.not_lt.mpr h.2)
      · intro msg h
        cases h
      · intro h
        cases h
    · have hy2 : env.localDomainSize.y ≤ env.initPlaneY := Nat.not_lt.mp hy
      rw [LaserPhysics.apply_enabled_outside env currentStep hd hy2]
      refine ⟨?_, ?_, ?_⟩
      · exact ⟨fun _ => ⟨rfl, hy2⟩, fun _ => rfl⟩
      · intro msg h
        cases h
        rfl
      · intro h
        cases h
  · rw [LaserPhysics.apply_disabled env currentStep hd]
    refine ⟨?_, ?_, ?_⟩
    · constructor
      · intro h
        cases h
      · intro h
        cases h.1
    · intro msg h
      cases h
    · intro _
      exact ⟨rfl, rfl, rfl⟩

theorem LaserPhysics.fatal_iff_witness :
    LaserPhysics.disableLaser exampleEnv 150 = true ∧
    LaserPhysics.disableLaser planeOutsideEnv 0 = false ∧
    LaserPhysics.apply exampleEnv 150 = Outcome.noop ∧
    LaserPhysics.apply planeOutsideEnv 0 =
      Outcome.fatal "initPlaneY must be located in the top GPU" :=
  ⟨by decide, by decide,
    ((LaserPhysics.fatal_iff exampleEnv 150).2.2 (by decide)).1,
    (LaserPhysics.fatal_iff planeOutsideEnv 0).1.mpr ⟨by decide, by decide⟩⟩

/-- C1, as the claim words it, fails: in the set-up `planeOutsideEnv`, which
passes both compile-time assertions, none of the four disable conditions holds
in step `0`, yet no kernel is launched: the laser plane lies outside the local
domain and the call ends with the fatal error. -/
theorem LaserPhysics.dispatch_iff_enabled_fails :
    LaserPhysics.compiles planeOutsideEnv = true ∧
    LaserPhysics.laserNone planeOutsideEnv = false ∧
    LaserPhysics.laserInitTimeOver planeOutsideEnv 0 = false ∧
    LaserPhysics.topBoundariesArePeriodic planeOutsideEnv = false ∧
    LaserPhysics.boxHasSlided planeOutsideEnv 0 = false ∧
    (LaserPhysics.apply planeOutsideEnv 0).isDispatched = false ∧
    LaserPhysics.apply planeOutsideEnv 0 =
      Outcome.fatal "initPlaneY must be located in the top GPU" ∧
    ¬ ((LaserPhysics.apply planeOutsideEnv 0).isDispatched = true ↔
        ¬ (LaserPhysics.laserNone planeOutsideEnv = true ∨
            LaserPhysics.laserInitTimeOver planeOutsideEnv 0 = true ∨
            LaserPhysics.topBoundariesArePeriodic planeOutsideEnv = true ∨
            LaserPhysics.boxHasSlided planeOutsideEnv 0 = true)) := by
  decide

/-- C1, amended: for every `currentStep` and every environment, injection is
active (the call is not a no-op) if and only if none of the four disable
conditions `laserNone`, `laserInitTimeOver`, `topBoundariesArePeriodic`,
`boxHasSlided` holds; the laser kernel is launched if and only if none of the
four holds and `initPlaneY` lies inside the local domain in `y`; and each of
the four conditions alone makes the call a no-op, whatever the other three
are. -/
theorem LaserPhysics.dispatch_iff {F : Type} (env : Env F) (currentStep : Nat) :
    (LaserPhysics.apply env currentStep ≠ Outcome.noop ↔
      ¬ (LaserPhysics.laserNone env = true ∨
          LaserPhysics.laserInitTimeOver env currentStep = true ∨
          LaserPhysics.topBoundariesArePeriodic env = true ∨
          LaserPhysics.boxHasSlided env currentStep = true)) ∧
    ((LaserPhysics.apply env currentStep).isDispatched = true ↔
      (¬ (LaserPhysics.laserNone env = true ∨
          LaserPhysics.laserInitTimeOver env currentStep = true ∨
          LaserPhysics.topBoundariesArePeriodic env = true ∨
          LaserPhysics.boxHasSlided env currentStep = true) ∧
        env.initPlaneY < env.localDomainSize.y)) ∧
    (LaserPhysics.laserNone env = true → LaserPhysics.apply env currentStep = Outcome.noop) ∧
    (LaserPhysics.laserInitTimeOver env currentStep = true →
      LaserPhysics.apply env currentStep = Outcome.noop) ∧
    (LaserPhysics.topBoundariesArePeriodic env = true →
      LaserPhysics.apply env currentStep = Outcome.noop) ∧
    (LaserPhysics.boxHasSlided env currentStep = true →
      LaserPhysics.apply env currentStep = Outcome.noop) := by
  have hoff : ∀ b, LaserPhysics.disableLaser env currentStep = b → b = true →
      LaserPhysics.apply env currentStep = Outcome.noop := by
    intro b hb hbt
    exact LaserPhysics.apply_disabled env currentStep (hb.trans hbt)
  refine ⟨?_, ?_, ?_, ?_, ?_, ?_⟩
  · rw [← LaserPhysics.disableLaser_eq_false_iff]
    cases hd : LaserPhysics.disableLaser env currentStep
    · by_cases hy : env.initPlaneY < env.localDomainSize.y
      · rw [LaserPhysics.apply_enabled_inside env currentStep hd hy]
        simp
      · rw [LaserPhysics.apply_enabled_outside env currentStep hd (Nat.not_lt.mp hy)]
        simp
    · rw [LaserPhysics.apply_disabled env currentStep hd]
      simp
  · rw [← LaserPhysics.disableLaser_eq_false_iff]
    cases hd : LaserPhysics.disableLaser env currentStep
    · by_cases hy : env.initPlaneY < env.localDomainSize.y
      · rw [LaserPhysics.apply_enabled_inside env currentStep hd hy]
        simp [Outcome.isDispatched, hy]
      · rw [LaserPhysics.apply_enabled_outside env currentStep hd (Nat.not_lt.mp hy)]
        simp [Outcome.isDispatched, hy]
    · rw [LaserPhysics.apply_disabled env currentStep hd]
      simp [Outcome.isDispatched]
  · intro h
    exact hoff _ (by simp [LaserPhysics.disableLaser, h]) rfl
  · intro h
    exact hoff _ (by simp [LaserPhysics.disableLaser, h]) rfl
  · intro h
    exact hoff _ (by simp [LaserPhysics.disableLaser, h]) rfl
  · intro h
    exact hoff _ (by simp [LaserPhysics.disableLaser, h]) rfl

theorem LaserPhysics.dispatch_iff_witness :
    LaserPhysics.topBoundariesArePeriodic
        { exampleEnv with communicationMaskTOP := true } = true ∧
    LaserPhysics.apply { exampleEnv with communicationMaskTOP := true } 0 = Outcome.noop ∧
    LaserPhysics.laserInitTimeOver exampleEnv 103 = true ∧
    LaserPhysics.apply exampleEnv 103 = Outcome.noop ∧
    (LaserPhysics.apply exampleEnv 0).isDispatched = true :=
  ⟨by decide,
    (LaserPhysics.dispatch_iff { exampleEnv with communicationMaskTOP := true } 0).2.2.2.2.1
      (by decide),
    by decide,
    (LaserPhysics.dispatch_iff exampleEnv 103).2.2.2.1 (by decide),
    (LaserPhysics.dispatch_iff exampleEnv 0).2.1.mpr ⟨by decide, by decide⟩⟩

/-- C6: if the slide counter of the moving window is nonzero at `currentStep`,
then injection is inactive in that step and in every later step: the call is
a no-op that launches no kernel and calls the evaluator for no cell, whatever
the laser profile, the init time, the periodicity of the top boundary and the
rest of the environment are. -/
theorem LaserPhysics.slid_disables_forever (mw : MovingWindow) (currentStep : Nat)
    (hslid : mw.getSlideCounter currentStep ≠ 0) :
    ∀ {F : Type} (env : Env F), env.movingWindow = mw →
      ∀ laterStep, currentStep ≤ laterStep →
        LaserPhysics.boxHasSlided env laterStep = true ∧
        LaserPhysics.apply env laterStep = Outcome.noop ∧
        (LaserPhysics.apply env laterStep).isDispatched = false ∧
        (LaserPhysics.apply env laterStep).calls = [] := by
  intro F env hmw laterStep hle
  have hmono := MovingWindow.getSlideCounter_mono mw hle
  have hne : env.movingWindow.getSlideCounter laterStep ≠ 0 := by
    rw [hmw]
    omega
  have hbox : LaserPhysics.boxHasSlided env laterStep = true :=
    (LaserPhysics.boxHasSlided_iff env laterStep).mpr hne
  have hnoop : LaserPhysics.apply env laterStep = Outcome.noop :=
    LaserPhysics.apply_disabled env laterStep (by simp [LaserPhysics.disableLaser, hbox])
  refine ⟨hbox, hnoop, ?_, ?_⟩ <;> rw [hnoop] <;> rfl

theorem LaserPhysics.slid_disables_forever_witness :
    exampleEnv.movingWindow.getSlideCounter 200 ≠ 0 ∧
    LaserPhysics.apply { exampleEnv with INIT_TIME := 1000 } 199 ≠ Outcome.noop ∧
    LaserPhysics.apply { exampleEnv with INIT_TIME := 1000 } 200 = Outcome.noop ∧
    LaserPhysics.apply { exampleEnv with INIT_TIME := 1000 } 230 = Outcome.noop :=
  ⟨by decide, by decide,
    (LaserPhysics.slid_disables_forever exampleEnv.movingWindow 200 (by decide)
      { exampleEnv with INIT_TIME := 1000 } rfl 200 (by decide)).2.1,
    (LaserPhysics.slid_disables_forever exampleEnv.movingWindow 200 (by decide)
      { exampleEnv with INIT_TIME := 1000 } rfl 230 (by decide)).2.1⟩

/-! ## The worker loop -/

theorem le_numCollIter_mul (domainSize workerSize : Nat) (hW : 0 < workerSize) :
    domainSize ≤ numCollIter domainSize workerSize * workerSize := by
  unfold numCollIter
  have h1 := Nat.div_add_mod (domainSize + workerSize - 1) workerSize
  have h2 := Nat.mod_lt (domainSize + workerSize - 1) hW
  rw [Nat.mul_comm] at h1
  omega

theorem mem_ForEachIdx (domainSize workerSize workerIdx linearIdx : Nat)
    (hW : 0 < workerSize) (hw : workerIdx < workerSize) :
    linearIdx ∈ ForEachIdx domainSize workerSize workerIdx ↔
      linearIdx < domainSize ∧ linearIdx % workerSize = workerIdx := by
  unfold ForEachIdx
  simp only [List.mem_filter, List.mem_map, List.mem_range, decide_eq_true_eq]
  constructor
  · rintro ⟨⟨i, _, rfl⟩, hlt⟩
    refine ⟨hlt, ?_⟩
    rw [Nat.mul_comm, Nat.mul_add_mod]
    exact Nat.mod_eq_of_lt hw
  · rintro ⟨hlt, hmod⟩
    refine ⟨⟨linearIdx / workerSize, ?_, ?_⟩, hlt⟩
    · rw [Nat.div_lt_iff_lt_mul hW]
      exact Nat.lt_of_lt_of_le hlt (le_numCollIter_mul domainSize workerSize hW)
    · rw [← hmod, Nat.mul_comm]
      exact Nat.div_add_mod linearIdx workerSize

theorem lt_of_mem_ForEachIdx {domainSize workerSize workerIdx linearIdx : Nat}
    (h : linearIdx ∈ ForEachIdx domainSize workerSize workerIdx) : linearIdx < domainSize := by
  unfold ForEachIdx at h
  simpa using (List.mem_filter.mp h).2

theorem nodup_ForEachIdx (domainSize workerSize workerIdx : Nat) (hW : 0 < workerSize) :
    (ForEachIdx domainSize workerSize workerIdx).Nodup := by
  unfold ForEachIdx
  apply List.Nodup.filter
  apply List.Nodup.map _ (List.nodup_range _)
  intro i j hij
  have h : i * workerSize = j * workerSize := Nat.add_right_cancel hij
  exact Nat.eq_of_mul_eq_mul_right hW h

/-- A list built round by round from `0 .. n-1` has no duplicates when every
round has none and different rounds share no element. -/
theorem nodup_flatMap_range {α : Type} (n : Nat) (f : Nat → List α)
    (hnodup : ∀ i, i < n → (f i).Nodup)
    (hdisj : ∀ i j, i < n → j < n → i ≠ j → ∀ a, a ∈ f i → a ∈ f j → False) :
    ((List.range n).flatMap f).Nodup := by
  rw [List.nodup_flatMap]
  refine ⟨fun i hi => hnodup i (List.mem_range.mp hi), ?_⟩
  have hp : List.Pairwise (fun i j => i ≠ j) (List.range n) := List.nodup_range n
  refine List.Pairwise.imp_of_mem ?_ hp
  intro i j hi hj hij a ha hb
  exact hdisj i j (List.mem_range.mp hi) (List.mem_range.mp hj) hij a ha hb

/-- All indices that the workers of one block process, worker by worker. -/
theorem nodup_allWorkers (domainSize workerSize : Nat) (hW : 0 < workerSize) :
    ((List.range workerSize).flatMap (ForEachIdx domainSize workerSize)).Nodup := by
  apply nodup_flatMap_range
  · intro w _
    exact nodup_ForEachIdx domainSize workerSize w hW
  · intro w1 w2 h1 h2 hne a ha hb
    have e1 := ((mem_ForEachIdx domainSize workerSize w1 a hW h1).mp ha).2
    have e2 := ((mem_ForEachIdx domainSize workerSize w2 a hW h2).mp hb).2
    exact hne (e1.symm.trans e2)

theorem mem_allWorkers (domainSize workerSize linearIdx : Nat) (hW : 0 < workerSize) :
    linearIdx ∈ (List.range workerSize).flatMap (ForEachIdx domainSize workerSize) ↔
      linearIdx < domainSize := by
  simp only [List.mem_flatMap, List.mem_range]
  constructor
  · rintro ⟨w, _, hmem⟩
    exact lt_of_mem_ForEachIdx hmem
  · intro hlt
    exact ⟨linearIdx % workerSize, Nat.mod_lt _ hW,
      (mem_ForEachIdx domainSize workerSize _ linearIdx hW (Nat.mod_lt _ hW)).mpr ⟨hlt, rfl⟩⟩

/-- C3: within one block, for every plane size and every number of workers
`numWorkers >= 1`, the linear indices that the workers `0 .. numWorkers-1`
process in the `ForEachIdx` loop are pairwise disjoint between workers, no
worker processes an index twice, and together they are exactly `0 ..
planeSize-1`: every index of the plane is processed by exactly one worker,
exactly once. -/
theorem ForEachIdx_partition (planeSize numWorkers : Nat) (hW : 1 ≤ numWorkers) :
    (∀ w1 w2, w1 < numWorkers → w2 < numWorkers → w1 ≠ w2 →
      ∀ linearIdx, linearIdx ∈ ForEachIdx planeSize numWorkers w1 →
        linearIdx ∉ ForEachIdx planeSize numWorkers w2) ∧
    (∀ w, w < numWorkers → (ForEachIdx planeSize numWorkers w).Nodup) ∧
    (∀ linearIdx, linearIdx < planeSize ↔
      ∃ w, w < numWorkers ∧ linearIdx ∈ ForEachIdx planeSize numWorkers w) ∧
    (∀ linearIdx, linearIdx < planeSize →
      ∃ w, w < numWorkers ∧ linearIdx ∈ ForEachIdx planeSize numWorkers w ∧
        ∀ v, v < numWorkers → linearIdx ∈ ForEachIdx planeSize numWorkers v → v = w) ∧
    (∀ linearIdx,
      List.count linearIdx ((List.range numWorkers).flatMap (ForEachIdx planeSize numWorkers)) =
        if linearIdx < planeSize then 1 else 0) := by
  have hpos : 0 < numWorkers := hW
  refine ⟨?_, ?_, ?_, ?_, ?_⟩
  · intro w1 w2 h1 h2 hne linearIdx ha hb
    have e1 := ((mem_ForEachIdx planeSize numWorkers w1 linearIdx hpos h1).mp ha).2
    have e2 := ((mem_ForEachIdx planeSize numWorkers w2 linearIdx hpos h2).mp hb).2
    exact hne (e1.symm.trans e2)
  · intro w _
    exact nodup_ForEachIdx planeSize numWorkers w hpos
  · intro linearIdx
    rw [← mem_allWorkers planeSize numWorkers linearIdx hpos]
    simp only [List.mem_flatMap, List.mem_range]
  · intro linearIdx hlt
    refine ⟨linearIdx % numWorkers, Nat.mod_lt _ hpos,
      (mem_ForEachIdx planeSize numWorkers _ linearIdx hpos (Nat.mod_lt _ hpos)).mpr ⟨hlt, rfl⟩,
      ?_⟩
    intro v hv hmem
    exact (((mem_ForEachIdx planeSize numWorkers v linearIdx hpos hv).mp hmem).2).symm
  · intro linearIdx
    rw [List.count_eq_of_nodup (nodup_allWorkers planeSize numWorkers hpos)]
    simp only [mem_allWorkers planeSize numWorkers linearIdx hpos]

theorem ForEachIdx_partition_witness :
    1 ≤ 4 ∧
    List.count 9 ((List.range 4).flatMap (ForEachIdx 10 4)) = 1 ∧
    List.count 10 ((List.range 4).flatMap (ForEachIdx 10 4)) = 0 ∧
    ForEachIdx 10 4 1 = [1, 5, 9] :=
  ⟨by decide, (ForEachIdx_partition 10 4 (by decide)).2.2.2.2 9,
    (ForEachIdx_partition 10 4 (by decide)).2.2.2.2 10, by decide⟩

/-! ## The cells of one block -/

/-- The cell index that the kernel passes to the evaluator for `linearIdx`,
for the plane size `(Sx, 1, Sz)` and an index inside the plane. -/
theorem KernelLaser.cellIdxInSuperCell_plane (simDim : SimDim) (Sx Sz initPlaneY Sy linearIdx : Nat)
    (hidx : linearIdx < volume simDim ⟨Sx, 1, Sz⟩) :
    KernelLaser.cellIdxInSuperCell simDim ⟨Sx, 1, Sz⟩ initPlaneY Sy linearIdx =
      ⟨linearIdx % Sx, initPlaneY % Sy, linearIdx / Sx⟩ := by
  cases simDim
  · have h : linearIdx < Sx := by simpa [volume] using hidx
    simp [KernelLaser.cellIdxInSuperCell, map, KernelLaser.cellOffsetInSuperCellFromInitPlaneY,
      Nat.div_eq_of_lt h]
  · simp [KernelLaser.cellIdxInSuperCell, map, KernelLaser.cellOffsetInSuperCellFromInitPlaneY,
      Nat.mod_one]

theorem mem_PMACC_KERNEL {α : Type} (simDim : SimDim) (kernel : DataSpace → Nat → List α)
    (gridBlocks : DataSpace) (numWorkers : Nat) (a : α) :
    a ∈ PMACC_KERNEL simDim kernel gridBlocks numWorkers ↔
      ∃ blockIdx, blockIdx ∈ blockIndices simDim gridBlocks ∧
        ∃ workerIdx, workerIdx < numWorkers ∧ a ∈ kernel blockIdx workerIdx := by
  simp [PMACC_KERNEL, List.mem_flatMap]

/-- C10: for the plane size that `LaserPhysics` dispatches (the supercell
extents with `y` extent `1`), for every `initPlaneY`, every supercell of
positive `y` extent and every `linearIdx` below the plane size, the cell index
passed to the evaluator (`map` of `linearIdx` with `initPlaneY mod
SuperCellSize.y` added to `y`) lies inside the supercell: every component is
at least `0` and strictly below the supercell extent on its axis (with two
dimensions the `z` component is `0`).  In particular this holds for every call
of the evaluator that a launch of `LaserPhysics::operator()` makes. -/
theorem KernelLaser.cellIdxInSuperCell_inside {F : Type} (env : Env F)
    (hSy : 0 < env.SuperCellSize.y) :
    (∀ linearIdx,
      linearIdx < volume env.simDim (LaserPhysics.LaserPlaneSizeInSuperCells env) →
      0 ≤ (KernelLaser.cellIdxInSuperCell env.simDim (LaserPhysics.LaserPlaneSizeInSuperCells env)
            env.initPlaneY env.SuperCellSize.y linearIdx).x ∧
      (KernelLaser.cellIdxInSuperCell env.simDim (LaserPhysics.LaserPlaneSizeInSuperCells env)
            env.initPlaneY env.SuperCellSize.y linearIdx).x < env.SuperCellSize.x ∧
      0 ≤ (KernelLaser.cellIdxInSuperCell env.simDim (LaserPhysics.LaserPlaneSizeInSuperCells env)
            env.initPlaneY env.SuperCellSize.y linearIdx).y ∧
      (KernelLaser.cellIdxInSuperCell env.simDim (LaserPhysics.LaserPlaneSizeInSuperCells env)
            env.initPlaneY env.SuperCellSize.y linearIdx).y < env.SuperCellSize.y ∧
      0 ≤ (KernelLaser.cellIdxInSuperCell env.simDim (LaserPhysics.LaserPlaneSizeInSuperCells env)
            env.initPlaneY env.SuperCellSize.y linearIdx).z ∧
      (env.simDim = SimDim.DIM3 →
        (KernelLaser.cellIdxInSuperCell env.simDim (LaserPhysics.LaserPlaneSizeInSuperCells env)
            env.initPlaneY env.SuperCellSize.y linearIdx).z < env.SuperCellSize.z) ∧
      (env.simDim = SimDim.DIM2 →
        (KernelLaser.cellIdxInSuperCell env.simDim (LaserPhysics.LaserPlaneSizeInSuperCells env)
            env.initPlaneY env.SuperCellSize.y linearIdx).z = 0)) ∧
    (∀ currentStep call, call ∈ (LaserPhysics.apply env currentStep).calls →
      call.cellIdxInSuperCell.x < env.SuperCellSize.x ∧
      call.cellIdxInSuperCell.y < env.SuperCellSize.y ∧
      (env.simDim = SimDim.DIM3 → call.cellIdxInSuperCell.z < env.SuperCellSize.z) ∧
      (env.simDim = SimDim.DIM2 → call.cellIdxInSuperCell.z = 0)) := by
  have main : ∀ linearIdx,
      linearIdx < volume env.simDim (LaserPhysics.LaserPlaneSizeInSuperCells env) →
      (KernelLaser.cellIdxInSuperCell env.simDim (LaserPhysics.LaserPlaneSizeInSuperCells env)
            env.initPlaneY env.SuperCellSize.y linearIdx).x < env.SuperCellSize.x ∧
      (KernelLaser.cellIdxInSuperCell env.simDim (LaserPhysics.LaserPlaneSizeInSuperCells env)
            env.initPlaneY env.SuperCellSize.y linearIdx).y < env.SuperCellSize.y ∧
      (env.simDim = SimDim.DIM3 →
        (KernelLaser.cellIdxInSuperCell env.simDim (LaserPhysics.LaserPlaneSizeInSuperCells env)
            env.initPlaneY env.SuperCellSize.y linearIdx).z < env.SuperCellSize.z) ∧
      (env.simDim = SimDim.DIM2 →
        (KernelLaser.cellIdxInSuperCell env.simDim (LaserPhysics.LaserPlaneSizeInSuperCells env)
            env.initPlaneY env.SuperCellSize.y linearIdx).z = 0) := by
    intro linearIdx hidx
    rw [LaserPhysics.LaserPlaneSizeInSuperCells_eq] at hidx ⊢
    rw [KernelLaser.cellIdxInSuperCell_plane _ _ _ _ _ _ hidx]
    have hSx : 0 < env.SuperCellSize.x := by
      rcases Nat.eq_zero_or_pos env.SuperCellSize.x with h0 | h0
      · rw [h0] at hidx
        cases hd : env.simDim <;> rw [hd] at hidx <;> simp [volume] at hidx
      · exact h0
    refine ⟨Nat.mod_lt _ hSx, Nat.mod_lt _ hSy, ?_, ?_⟩
    · intro hd
      rw [hd] at hidx
      apply Nat.div_lt_of_lt_mul
      simpa [volume] using hidx
    · intro hd
      rw [hd] at hidx
      apply Nat.div_eq_of_lt
      simpa [volume] using hidx
  refine ⟨fun linearIdx hidx => ?_, ?_⟩
  · obtain ⟨h1, h2, h3, h4⟩ := main linearIdx hidx
    exact ⟨Nat.zero_le _, h1, Nat.zero_le _, h2, Nat.zero_le _, h3, h4⟩
  · intro currentStep call hcall
    unfold LaserPhysics.apply at hcall
    split at hcall
    · split at hcall
      · simp only [Outcome.calls, LaserPhysics.launch] at hcall
        rw [mem_PMACC_KERNEL] at hcall
        obtain ⟨blockIdx, _, workerIdx, _, hmem⟩ := hcall
        unfold KernelLaser.run at hmem
        simp only [List.mem_map] at hmem
        obtain ⟨linearIdx, hin, rfl⟩ := hmem
        exact main linearIdx (lt_of_mem_ForEachIdx hin)
      · simp [Outcome.calls] at hcall
    · simp [Outcome.calls] at hcall

theorem KernelLaser.cellIdxInSuperCell_inside_witness :
    0 < exampleEnv.SuperCellSize.y ∧
    KernelLaser.cellIdxInSuperCell exampleEnv.simDim
      (LaserPhysics.LaserPlaneSizeInSuperCells exampleEnv) exampleEnv.initPlaneY
      exampleEnv.SuperCellSize.y 3 = ⟨1, 1, 1⟩ ∧
    (KernelLaser.cellIdxInSuperCell exampleEnv.simDim
      (LaserPhysics.LaserPlaneSizeInSuperCells exampleEnv) exampleEnv.initPlaneY
      exampleEnv.SuperCellSize.y 3).x < exampleEnv.SuperCellSize.x :=
  ⟨by decide, by decide,
    ((KernelLaser.cellIdxInSuperCell_inside exampleEnv (by decide)).1 3 (by decide)).2.1⟩

/-! ## The cells of a launch -/

theorem divmod_unique {n a r b s : Nat} (hr : r < n) (hs : s < n)
    (h : a * n + r = b * n + s) : a = b ∧ r = s := by
  have hn : 0 < n := Nat.lt_of_le_of_lt (Nat.zero_le r) hr
  have hd : (a * n + r) / n = (b * n + s) / n := by rw [h]
  have hm : (a * n + r) % n = (b * n + s) % n := by rw [h]
  rw [Nat.add_comm (a * n), Nat.add_comm (b * n), Nat.add_mul_div_right _ _ hn,
    Nat.add_mul_div_right _ _ hn, Nat.div_eq_of_lt hr, Nat.div_eq_of_lt hs] at hd
  rw [Nat.add_comm (a * n), Nat.add_comm (b * n), Nat.add_mul_mod_self_right,
    Nat.add_mul_mod_self_right, Nat.mod_eq_of_lt hr, Nat.mod_eq_of_lt hs] at hm
  exact ⟨by omega, hm⟩

theorem mul_add_lt_mul {a m r n : Nat} (ha : a < m) (hr : r < n) : a * n + r < m * n := by
  have h1 : (a + 1) * n ≤ m * n := Nat.mul_le_mul_right n ha
  rw [Nat.add_mul, Nat.one_mul] at h1
  omega

theorem nodup_flatMap_of_nodup {α β : Type} (l : List β) (f : β → List α) (hl : l.Nodup)
    (hnodup : ∀ b, b ∈ l → (f b).Nodup)
    (hdisj : ∀ b c, b ∈ l → c ∈ l → b ≠ c → ∀ a, a ∈ f b → a ∈ f c → False) :
    (l.flatMap f).Nodup := by
  rw [List.nodup_flatMap]
  refine ⟨hnodup, ?_⟩
  have hp : List.Pairwise (fun i j => i ≠ j) l := hl
  refine List.Pairwise.imp_of_mem ?_ hp
  intro i j hi hj hij a ha hb
  exact hdisj i j hi hj hij a ha hb

/-- The blocks of a launch: all indices below the grid extents. -/
theorem mem_blockIndices (simDim : SimDim) (gridBlocks b : DataSpace) :
    b ∈ blockIndices simDim gridBlocks ↔
      b.x < gridBlocks.x ∧ b.y < gridBlocks.y ∧
        (match simDim with
          | SimDim.DIM2 => b.z = 0
          | SimDim.DIM3 => b.z < gridBlocks.z) := by
  obtain ⟨bx, by_, bz⟩ := b
  cases simDim <;>
    simp only [blockIndices, List.mem_flatMap, List.mem_map, List.mem_range,
      DataSpace.mk.injEq] <;>
    constructor
  · rintro ⟨z, hz, y, hy, x, hx, rfl, rfl, rfl⟩
    exact ⟨hx, hy, by omega⟩
  · rintro ⟨hx, hy, hz⟩
    exact ⟨bz, by omega, by_, hy, bx, hx, rfl, rfl, rfl⟩
  · rintro ⟨z, hz, y, hy, x, hx, rfl, rfl, rfl⟩
    exact ⟨hx, hy, hz⟩
  · rintro ⟨hx, hy, hz⟩
    exact ⟨bz, hz, by_, hy, bx, hx, rfl, rfl, rfl⟩

theorem nodup_blockIndices (simDim : SimDim) (gridBlocks : DataSpace) :
    (blockIndices simDim gridBlocks).Nodup := by
  unfold blockIndices
  apply nodup_flatMap_range
  · intro bz _
    apply nodup_flatMap_range
    · intro by_ _
      apply List.Nodup.map _ (List.nodup_range _)
      intro i j hij
      exact (DataSpace.mk.inj hij).1
    · intro i j _ _ hne a ha hb
      simp only [List.mem_map, List.mem_range] at ha hb
      obtain ⟨_, _, rfl⟩ := ha
      obtain ⟨_, _, h⟩ := hb
      exact hne (DataSpace.mk.inj h).2.1.symm
  · intro i j _ _ hne a ha hb
    simp only [List.mem_flatMap, List.mem_map, List.mem_range] at ha hb
    obtain ⟨_, _, _, _, rfl⟩ := ha
    obtain ⟨_, _, _, _, h⟩ := hb
    exact hne (DataSpace.mk.inj h).2.2.symm

/-- Position in the local domain of the cell that block `b` evaluates for the
index `i` of the plane. -/
theorem localCell_plane {F : Type} (env : Env F) (b : DataSpace) (i : Nat)
    (hi : i < volume env.simDim (LaserPhysics.LaserPlaneSizeInSuperCells env)) :
    EvaluatorCall.localCell env.SuperCellSize
        { localSuperCellOffset := KernelLaser.localSuperCellOffset env b
          cellIdxInSuperCell :=
            KernelLaser.cellIdxInSuperCell env.simDim (LaserPhysics.LaserPlaneSizeInSuperCells env)
              env.initPlaneY env.SuperCellSize.y i } =
      ⟨b.x * env.SuperCellSize.x + i % env.SuperCellSize.x,
        (b.y + env.initPlaneY / env.SuperCellSize.y) * env.SuperCellSize.y +
          env.initPlaneY % env.SuperCellSize.y,
        b.z * env.SuperCellSize.z + i / env.SuperCellSize.x⟩ := by
  rw [LaserPhysics.LaserPlaneSizeInSuperCells_eq] at hi ⊢
  rw [KernelLaser.cellIdxInSuperCell_plane _ _ _ _ _ _ hi]
  simp [EvaluatorCall.localCell, KernelLaser.localSuperCellOffset, getSuperCellIndex,
    DataSpace.add, DataSpace.sub, DataSpace.mul, KernelLaser.blockOffsetCorrection]

/-- The cells of a launch, as a list built block by block and worker by
worker. -/
theorem launch_cells_eq {F : Type} (env : Env F) :
    (LaserPhysics.launch env).map (EvaluatorCall.localCell env.SuperCellSize) =
      (blockIndices env.simDim (LaserPhysics.gridBlocks env)).flatMap (fun b =>
        (List.range (LaserPhysics.numWorkers env)).flatMap (fun w =>
          (ForEachIdx (volume env.simDim (LaserPhysics.LaserPlaneSizeInSuperCells env))
            (LaserPhysics.numWorkers env) w).map (fun i =>
              (⟨b.x * env.SuperCellSize.x + i % env.SuperCellSize.x,
                (b.y + env.initPlaneY / env.SuperCellSize.y) * env.SuperCellSize.y +
                  env.initPlaneY % env.SuperCellSize.y,
                b.z * env.SuperCellSize.z + i / env.SuperCellSize.x⟩ : DataSpace)))) := by
  unfold LaserPhysics.launch PMACC_KERNEL KernelLaser.run
  rw [List.map_flatMap]
  congr 1
  funext b
  rw [List.map_flatMap]
  congr 1
  funext w
  rw [List.map_map]
  apply List.map_congr_left
  intro i hi
  exact localCell_plane env b i (lt_of_mem_ForEachIdx hi)

/-- Two evaluated cells of a launch coincide only if block and index do. -/
theorem planeCell_inj (simDim : SimDim) (gridBlocks : DataSpace) (Sx Sy Sz q r : Nat)
    (hgy : gridBlocks.y = 1) (hSx : 0 < Sx) (b c : DataSpace) (i j : Nat)
    (hb : b ∈ blockIndices simDim gridBlocks) (hc : c ∈ blockIndices simDim gridBlocks)
    (hi : i < volume simDim ⟨Sx, 1, Sz⟩) (hj : j < volume simDim ⟨Sx, 1, Sz⟩)
    (h : (⟨b.x * Sx + i % Sx, (b.y + q) * Sy + r, b.z * Sz + i / Sx⟩ : DataSpace) =
      ⟨c.x * Sx + j % Sx, (c.y + q) * Sy + r, c.z * Sz + j / Sx⟩) :
    b = c ∧ i = j := by
  obtain ⟨bx, by_, bz⟩ := b
  obtain ⟨cx, cy, cz⟩ := c
  rw [mem_blockIndices] at hb hc
  obtain ⟨hx, _, hz⟩ := DataSpace.mk.inj h
  simp only at hx hz hb hc
  obtain ⟨hbx, hmod⟩ := divmod_unique (Nat.mod_lt i hSx) (Nat.mod_lt j hSx) hx
  have hby : by_ = cy := by omega
  have hi2 := Nat.div_add_mod i Sx
  have hj2 := Nat.div_add_mod j Sx
  cases simDim
  · simp only [volume, Nat.mul_one] at hi hj
    have hbz : bz = cz := by
      rw [hb.2.2, hc.2.2]
    rw [Nat.mod_eq_of_lt hi, Nat.mod_eq_of_lt hj] at hmod
    exact ⟨by rw [hbx, hby, hbz], hmod⟩
  · simp only [volume, Nat.mul_one] at hi hj
    have hqi : i / Sx < Sz := Nat.div_lt_of_lt_mul hi
    have hqj : j / Sx < Sz := Nat.div_lt_of_lt_mul hj
    obtain ⟨hbz, hdiv⟩ := divmod_unique hqi hqj hz
    refine ⟨by rw [hbx, hby, hbz], ?_⟩
    rw [← hi2, ← hj2, hdiv, hmod]

theorem nodup_launch_cells {F : Type} (env : Env F) (hSx : 0 < env.SuperCellSize.x)
    (hW : 0 < LaserPhysics.numWorkers env) :
    ((LaserPhysics.launch env).map (EvaluatorCall.localCell env.SuperCellSize)).Nodup := by
  rw [launch_cells_eq]
  have hgy : (LaserPhysics.gridBlocks env).y = 1 := rfl
  have hP : volume env.simDim (LaserPhysics.LaserPlaneSizeInSuperCells env) =
      volume env.simDim ⟨env.SuperCellSize.x, 1, env.SuperCellSize.z⟩ := by
    rw [LaserPhysics.LaserPlaneSizeInSuperCells_eq]
  apply nodup_flatMap_of_nodup _ _ (nodup_blockIndices _ _)
  · intro b hb
    apply nodup_flatMap_range
    · intro w _
      apply List.Nodup.map_on _ (nodup_ForEachIdx _ _ w hW)
      intro i hi j hj hij
      exact (planeCell_inj env.simDim _ _ _ _ _ _ hgy hSx b b i j hb hb
        (hP ▸ lt_of_mem_ForEachIdx hi) (hP ▸ lt_of_mem_ForEachIdx hj) hij).2
    · intro w v hw hv hne a ha ha2
      simp only [List.mem_map] at ha ha2
      obtain ⟨i, hi, rfl⟩ := ha
      obtain ⟨j, hj, hij⟩ := ha2
      have hji := (planeCell_inj env.simDim _ _ _ _ _ _ hgy hSx b b j i hb hb
        (hP ▸ lt_of_mem_ForEachIdx hj) (hP ▸ lt_of_mem_ForEachIdx hi) hij).2
      rw [hji] at hj
      have e1 := ((mem_ForEachIdx _ _ w i hW hw).mp hi).2
      have e2 := ((mem_ForEachIdx _ _ v i hW hv).mp hj).2
      exact hne (e1.symm.trans e2)
  · intro b c hb hc hne a ha ha2
    simp only [List.mem_flatMap, List.mem_map, List.mem_range] at ha ha2
    obtain ⟨w, _, i, hi, rfl⟩ := ha
    obtain ⟨v, _, j, hj, hij⟩ := ha2
    exact hne (planeCell_inj env.simDim _ _ _ _ _ _ hgy hSx c b j i hc hb
      (hP ▸ lt_of_mem_ForEachIdx hj) (hP ▸ lt_of_mem_ForEachIdx hi) hij).1.symm

/-- The cells of a launch are the cells of all blocks for all indices of the
plane. -/
theorem mem_launch_cells {F : Type} (env : Env F) (hW : 0 < LaserPhysics.numWorkers env)
    (cell : DataSpace) :
    cell ∈ (LaserPhysics.launch env).map (EvaluatorCall.localCell env.SuperCellSize) ↔
      ∃ b, b ∈ blockIndices env.simDim (LaserPhysics.gridBlocks env) ∧
        ∃ i, i < volume env.simDim ⟨env.SuperCellSize.x, 1, env.SuperCellSize.z⟩ ∧
          cell = ⟨b.x * env.SuperCellSize.x + i % env.SuperCellSize.x,
            (b.y + env.initPlaneY / env.SuperCellSize.y) * env.SuperCellSize.y +
              env.initPlaneY % env.SuperCellSize.y,
            b.z * env.SuperCellSize.z + i / env.SuperCellSize.x⟩ := by
  rw [launch_cells_eq, LaserPhysics.LaserPlaneSizeInSuperCells_eq]
  simp only [List.mem_flatMap, List.mem_map, List.mem_range]
  constructor
  · rintro ⟨b, hb, w, _, i, hi, rfl⟩
    exact ⟨b, hb, i, lt_of_mem_ForEachIdx hi, rfl⟩
  · rintro ⟨b, hb, i, hi, rfl⟩
    exact ⟨b, hb, i % LaserPhysics.numWorkers env, Nat.mod_lt _ hW, i,
      (mem_ForEachIdx _ _ _ i hW (Nat.mod_lt _ hW)).mpr ⟨hi, rfl⟩, rfl⟩

/-- The cells that the blocks of a launch cover are the cells of the
injection plane, when the local domain consists of whole supercells. -/
theorem launch_covers_plane {F : Type} (env : Env F)
    (hSx : 0 < env.SuperCellSize.x)
    (hSz : env.simDim = SimDim.DIM3 → 0 < env.SuperCellSize.z)
    (hdx : env.SuperCellSize.x ∣ env.localDomainSize.x)
    (hdz : env.simDim = SimDim.DIM3 → env.SuperCellSize.z ∣ env.localDomainSize.z)
    (hy : env.initPlaneY < env.localDomainSize.y) (cell : DataSpace) :
    (∃ b, b ∈ blockIndices env.simDim (LaserPhysics.gridBlocks env) ∧
        ∃ i, i < volume env.simDim ⟨env.SuperCellSize.x, 1, env.SuperCellSize.z⟩ ∧
          cell = ⟨b.x * env.SuperCellSize.x + i % env.SuperCellSize.x,
            (b.y + env.initPlaneY / env.SuperCellSize.y) * env.SuperCellSize.y +
              env.initPlaneY % env.SuperCellSize.y,
            b.z * env.SuperCellSize.z + i / env.SuperCellSize.x⟩) ↔
      inInjectionPlane env cell := by
  have hgx : (LaserPhysics.gridBlocks env).x = env.localDomainSize.x / env.SuperCellSize.x := rfl
  have hgy : (LaserPhysics.gridBlocks env).y = 1 := rfl
  have hgz : (LaserPhysics.gridBlocks env).z = env.localDomainSize.z / env.SuperCellSize.z := rfl
  have hyeq : env.initPlaneY / env.SuperCellSize.y * env.SuperCellSize.y +
      env.initPlaneY % env.SuperCellSize.y = env.initPlaneY := by
    rw [Nat.mul_comm]
    exact Nat.div_add_mod _ _
  have hxmul : env.localDomainSize.x / env.SuperCellSize.x * env.SuperCellSize.x =
      env.localDomainSize.x := Nat.div_mul_cancel hdx
  unfold inInjectionPlane
  simp only [mem_blockIndices, hgx, hgy, hgz]
  constructor
  · rintro ⟨b, ⟨hbx, hby, hbz⟩, i, hi, rfl⟩
    have hb0 : b.y = 0 := by omega
    have hx := mul_add_lt_mul hbx (Nat.mod_lt i hSx)
    rw [hxmul] at hx
    refine ⟨hx, ?_, ?_, ?_⟩
    · simp only [hb0, Nat.zero_add]
      exact hyeq
    · simp only [hb0, Nat.zero_add]
      rw [hyeq]
      exact hy
    · cases hd : env.simDim
      · rw [hd] at hbz hi
        simp only [volume, Nat.mul_one] at hi hbz
        simp only [hbz, Nat.div_eq_of_lt hi, Nat.zero_mul, Nat.add_zero]
      · rw [hd] at hbz hi
        simp only [volume, Nat.mul_one] at hi hbz
        have hz := mul_add_lt_mul hbz (Nat.div_lt_of_lt_mul hi)
        rw [Nat.div_mul_cancel (hdz hd)] at hz
        exact hz
  · obtain ⟨cx, cy, cz⟩ := cell
    rintro ⟨hx, hcy, _, hz⟩
    simp only at hx hcy hz
    have hbx : cx / env.SuperCellSize.x < env.localDomainSize.x / env.SuperCellSize.x :=
      Nat.div_lt_div_of_lt_of_dvd hdx hx
    have hxeq : cx / env.SuperCellSize.x * env.SuperCellSize.x + cx % env.SuperCellSize.x = cx := by
      rw [Nat.mul_comm]
      exact Nat.div_add_mod _ _
    cases hd : env.simDim
    · rw [hd] at hz
      simp only at hz
      refine ⟨⟨cx / env.SuperCellSize.x, 0, 0⟩, ⟨hbx, Nat.zero_lt_one, rfl⟩,
        cx % env.SuperCellSize.x, ?_, ?_⟩
      · simp only [volume, Nat.mul_one]
        exact Nat.mod_lt _ hSx
      · simp only [Nat.mod_mod, Nat.zero_add, Nat.zero_mul,
          Nat.div_eq_of_lt (Nat.mod_lt cx hSx), hxeq, hyeq, hcy, hz]
    · rw [hd] at hz
      simp only at hz
      have hSz0 := hSz hd
      have hbz : cz / env.SuperCellSize.z < env.localDomainSize.z / env.SuperCellSize.z :=
        Nat.div_lt_div_of_lt_of_dvd (hdz hd) hz
      have hzeq : cz / env.SuperCellSize.z * env.SuperCellSize.z + cz % env.SuperCellSize.z = cz := by
        rw [Nat.mul_comm]
        exact Nat.div_add_mod _ _
      have hmodx := Nat.mod_lt cx hSx
      refine ⟨⟨cx / env.SuperCellSize.x, 0, cz / env.SuperCellSize.z⟩, ⟨hbx, Nat.zero_lt_one, hbz⟩,
        cz % env.SuperCellSize.z * env.SuperCellSize.x + cx % env.SuperCellSize.x, ?_, ?_⟩
      · simp only [volume, Nat.mul_one]
        rw [Nat.mul_comm env.SuperCellSize.x]
        exact mul_add_lt_mul (Nat.mod_lt _ hSz0) hmodx
      · have e1 : (cz % env.SuperCellSize.z * env.SuperCellSize.x + cx % env.SuperCellSize.x) %
            env.SuperCellSize.x = cx % env.SuperCellSize.x := by
          rw [Nat.add_comm, Nat.add_mul_mod_self_right, Nat.mod_mod]
        have e2 : (cz % env.SuperCellSize.z * env.SuperCellSize.x + cx % env.SuperCellSize.x) /
            env.SuperCellSize.x = cz % env.SuperCellSize.z := by
          rw [Nat.add_comm, Nat.add_mul_div_right _ _ hSx, Nat.div_eq_of_lt hmodx, Nat.zero_add]
        simp only [e1, e2, Nat.zero_add, hxeq, hyeq, hzeq, hcy]

end picongpu
